import Mathlib

/-!
# KimitFinalProject: the backend API service and the frontend service

A shallow embedding of `src/backend/app.js` and `src/frontend/app.js`.

Both programs are Express applications (Express 4): a list of layers
registered in source order (`app.use`, `app.get`), walked by the router for
each request.
The embedding keeps that shape: `backendApp` and `frontendApp` are lists of
`Layer`s in the order of the source, and `dispatch` is the router's walk.

The programs configure nothing, so the defaults of the framework and of the
middleware packages apply and are part of what the programs do:

* route and mount paths are compared without regard to case, and a route path
  also matches with a trailing slash;
* `app.use(path, fn)` matches every request path that starts with `path` at a
  segment boundary, for every method;
* a route registered with `app.get` also answers HEAD;
* `cors()` answers every OPTIONS request itself, with 204;
* `express.json()` passes an error on for a JSON body it cannot accept;
* the mount path `*` keeps the decoded request path as a parameter, so that
  matching it fails with an error for a path that cannot be decoded;
* after an error only handlers of four parameters run, and an error that no
  handler takes is answered by the framework with the status of the error.

Numbers are IEEE 754 doubles in the source.  The only arithmetic of the
program is `Math.floor(Math.random() * messages.length)`; it is modelled
exactly, with the product rounded to 53 significant bits (round to nearest,
ties to even).
-/

namespace Kimit

/-! ## Doubles in `[0, 1)` and the index computation of `/api/message` -/

/-- A result of `Math.random()`: a double `r` with `0 ≤ r < 1`, written as
`m / 2 ^ e` with a significand `m` of at most 53 bits and `e ≤ 1074` (the
smallest exponent of the format).  Every double in `[0, 1)` has this form and
every such value is a double. -/
structure Draw where
  m : Nat
  e : Nat
  significand : m < 2 ^ 53
  exponent : e ≤ 1074
  below_one : m < 2 ^ e

/-- The real value of a draw. -/
def Draw.val (d : Draw) : ℚ := (d.m : ℚ) / 2 ^ d.e

/-- The number of bits of `p` beyond the first 53 (its bit length minus 53,
or 0), counted by halving; the first argument bounds the number of halvings
and `p` itself is always enough. -/
def excessBits : Nat → Nat → Nat
  | 0, _ => 0
  | f + 1, p => if p < 2 ^ 53 then 0 else excessBits f (p / 2) + 1

/-- Round a natural number to 53 significant bits, to nearest, ties to even:
the significand rounding of an IEEE 754 double operation whose exact result
is `p` units of some power of two. -/
def round53 (p : Nat) : Nat :=
  let s := excessBits p p
  if s = 0 then p
  else
    let q := p / 2 ^ s
    let r := p % 2 ^ s
    let half := 2 ^ (s - 1)
    if r > half ∨ (r = half ∧ q % 2 = 1) then (q + 1) * 2 ^ s else q * 2 ^ s

/-- The pool of `/api/message` (`messages` in the handler). -/
def messages : List String :=
  [ "Hello from Backend API! 🚀"
  , "DevOps pipeline is working perfectly! ✅"
  , "EKS cluster is running smoothly! ☸️"
  , "Containers are healthy and happy! 🐳"
  , "Terraform infrastructure deployed successfully! 🏗️" ]

/-- The numerator, over `2 ^ d.e`, of the double `Math.random() * n`: the
exact product `d.m * n` rounded to a double.  (No overflow or underflow can
occur: the product is below `n` and its exponent is at least that of `d`.) -/
def mulNum (d : Draw) (n : Nat) : Nat := round53 (d.m * n)

/-- Numerator, over `2 ^ 54`, of the distance below the integer `k` at which
a product starts to round up to `k`: half the spacing of the doubles just
below `k`, that is `2 ^ (-54)` below 1, `2 ^ (-53)` below 2 and `2 ^ (-52)`
below 3 and below 4. -/
def slack : Nat → Nat
  | 1 => 1
  | 2 => 2
  | 3 => 4
  | 4 => 4
  | _ => 0

/-- The least exact value of `5 * r` for which the index is at least `k`. -/
def threshold (k : Nat) : ℚ := (k : ℚ) - (slack k : ℚ) / 2 ^ 54

/-- The value of `Math.floor(Math.random() * messages.length)`. -/
def randomIndex (d : Draw) : Nat := mulNum d messages.length / 2 ^ d.e

/-- The value of `messages[Math.floor(Math.random() * messages.length)]`;
`none` stands for `undefined` (an index outside the array). -/
def randomMessage (d : Draw) : Option String := messages[randomIndex d]?

/-- The double nearest to 0.6, which is what the literal `0.6` denotes:
`5404319552844595 / 2 ^ 53`, a little below three fifths. -/
def draw06 : Draw := ⟨5404319552844595, 53, by decide, by decide, by decide⟩

/-- The draw `k / 8` for `k < 8`. -/
def eighths (k : Nat) (h : k < 8) : Draw :=
  ⟨k, 3, by omega, by decide, by simpa using h⟩

/-! ## Requests, responses and the ambient values read by the handlers -/

/-- A JSON value of a response body (only strings and numbers occur). -/
inductive Json where
  | str (s : String)
  | num (q : ℚ)
  deriving DecidableEq

/-- A response body: the object passed to `res.json`, as its list of fields
in order; a non-JSON body (a file or a page of the framework); or no body. -/
inductive Body where
  | json (fields : List (String × Json))
  | text (content : String)
  | empty
  deriving DecidableEq

/-- A response, as the layer that answers writes it: the status code it sets
and the body it hands over (`res.status(..).json(..)`).  What the framework
does with these on the way out (headers, entity tags, leaving the body out
for HEAD or for a conditional request) is below the programs and is not
described here. -/
structure Response where
  status : Nat
  body : Body
  deriving DecidableEq

/-- What the request carries as a body, as `express.json()` classifies it:
no body at all, a body of another content type (which the parser skips), or a
body of type `application/json`, which the parser accepts or rejects
(malformed JSON, over the size limit, unsupported charset). -/
inductive Payload where
  | absent
  | foreign
  | json (accepted : Bool)
  deriving DecidableEq

/-- An incoming HTTP request.  `method` is the upper-case method token,
`path` the path of the request URL and `query` what follows `?`, if
present. -/
structure Request where
  method : String
  path : String
  query : Option String
  headers : List (String × String)
  payload : Payload

/-- Express `req.originalUrl`: the request URL as received, query included. -/
def Request.originalUrl (req : Request) : String :=
  match req.query with
  | none => req.path
  | some q => req.path ++ "?" ++ q

/-- The values a handler reads from outside the request. -/
structure Env where
  now : String
  draw : Draw
  hostname : String
  nodeEnv : Option String
  nodeVersion : String
  uptime : ℚ

/-- An error object travelling through the router (`err`). -/
structure Fault where
  status : Nat
  message : String
  stack : String
  deriving DecidableEq

/-- JavaScript `a || b` on an environment variable: `a` unless it is
`undefined` or the empty string (the only falsy strings). -/
def orElse (a : Option String) (b : String) : String :=
  match a with
  | none => b
  | some s => if s = "" then b else s

/-- The object literal given to `res.json`: a field whose value is
`undefined` is left out by `JSON.stringify`. -/
def object (fields : List (String × Option Json)) : Body :=
  Body.json (fields.filterMap fun kv => kv.2.map fun v => (kv.1, v))

/-- The value of a field of a JSON body; `none` when the body has no such
field or is not JSON. -/
def Body.field (b : Body) (name : String) : Option Json :=
  match b with
  | Body.json fields => fields.lookup name
  | _ => none

/-! ## The Express router -/

/-- What a middleware or handler does with a request: send a response, call
`next()`, or raise an error (`throw` or `next(err)`). -/
inductive Outcome where
  | respond (r : Response)
  | next
  | raise (err : Fault)
  deriving DecidableEq

/-- A layer of the application, as registered by `app.use` and `app.get`.
A function of four parameters given to `app.use` is an error handler. -/
inductive Layer where
  | use (mount : String) (fn : Env → Request → Outcome)
  | get (path : String) (fn : Env → Request → Outcome)
  | useError (fn : Env → Fault → Request → Outcome)

/-- Paths are compared without regard to (ASCII) case: routing is not case
sensitive by default. -/
def fold (p : String) : List Char := p.toList.map Char.toLower

/-- Whether a route path (`app.get(path, ...)`) matches the request path: the
whole path, without regard to case, with an optional trailing slash (strict
routing is off by default); for a route path that ends in a slash it is that
slash which is optional. -/
def matchRoute (path reqPath : String) : Bool :=
  if (fold path).getLast? = some '/' then
    fold reqPath = fold path || fold reqPath = (fold path).dropLast
  else
    fold reqPath = fold path || fold reqPath = fold path ++ ['/']

/-- The value of a hexadecimal digit. -/
def hexValue (c : Char) : Option Nat :=
  if '0' ≤ c ∧ c ≤ '9' then some (c.toNat - 48)
  else if 'a' ≤ c ∧ c ≤ 'f' then some (c.toNat - 87)
  else if 'A' ≤ c ∧ c ≤ 'F' then some (c.toNat - 55)
  else none

/-- The ranges in which the bytes after a leading byte `b` of a UTF-8 sequence
must lie (none for a byte below 128); `none` when `b` cannot lead a
well-formed sequence. -/
def continuations (b : Nat) : Option (List (Nat × Nat)) :=
  if b < 0x80 then some []
  else if 0xC2 ≤ b ∧ b ≤ 0xDF then some [(0x80, 0xBF)]
  else if b = 0xE0 then some [(0xA0, 0xBF), (0x80, 0xBF)]
  else if (0xE1 ≤ b ∧ b ≤ 0xEC) ∨ b = 0xEE ∨ b = 0xEF then some [(0x80, 0xBF), (0x80, 0xBF)]
  else if b = 0xED then some [(0x80, 0x9F), (0x80, 0xBF)]
  else if b = 0xF0 then some [(0x90, 0xBF), (0x80, 0xBF), (0x80, 0xBF)]
  else if 0xF1 ≤ b ∧ b ≤ 0xF3 then some [(0x80, 0xBF), (0x80, 0xBF), (0x80, 0xBF)]
  else if b = 0xF4 then some [(0x80, 0x8F), (0x80, 0xBF), (0x80, 0xBF)]
  else none

/-- Where a scan of percent-escapes stands: between escapes, after a `%`, or
after the first digit of an escape; `pending` lists the ranges of the escaped
bytes still owed to the current UTF-8 sequence. -/
inductive Scan where
  | plain (pending : List (Nat × Nat))
  | percent (pending : List (Nat × Nat))
  | digit (pending : List (Nat × Nat)) (high : Nat)

/-- One character of the scan; `none` where `decodeURIComponent` throws. -/
def scanStep : Scan → Char → Option Scan
  | Scan.plain pending, c =>
    if c = '%' then some (Scan.percent pending)
    else if pending = [] then some (Scan.plain [])
    else none
  | Scan.percent pending, c => (hexValue c).map (Scan.digit pending)
  | Scan.digit pending high, c =>
    match hexValue c with
    | none => none
    | some low =>
      match pending with
      | [] => (continuations (16 * high + low)).map Scan.plain
      | (lo, hi) :: rest =>
        if lo ≤ 16 * high + low ∧ 16 * high + low ≤ hi then some (Scan.plain rest) else none

/-- Whether `decodeURIComponent` accepts the string: every `%` is followed by
two hexadecimal digits and the escaped bytes of 128 and above form well-formed
UTF-8 sequences. -/
def decodable (s : List Char) : Bool :=
  match s.foldlM scanStep (Scan.plain []) with
  | some (Scan.plain []) => true
  | _ => false

/-- Whether a mount path other than `/` and `*` matches the request path: it
must be a leading part of the request path, without regard to case, that ends
at a `/` or at the end. -/
def matchLeading (mount reqPath : String) : Bool :=
  match (fold reqPath).drop (fold mount).length with
  | [] => fold reqPath = fold mount
  | c :: _ => (fold reqPath).take (fold mount).length = fold mount && c = '/'

/-- Whether a mount path (`app.use(path, ...)`) matches the request path.
`/` (no path given) matches every path.  `*` matches every path too and keeps
the decoded path as a parameter: for a path that `decodeURIComponent` rejects
the match fails with an error of status 400. -/
def matchMount (mount reqPath : String) : Except Fault Bool :=
  if mount = "/" then Except.ok true
  else if mount = "*" then
    if decodable reqPath.toList then Except.ok true
    else Except.error ⟨400, "Failed to decode param", "URIError"⟩
  else Except.ok (matchLeading mount reqPath)

/-- Whether a route registered with `app.get` handles the method: GET, and
HEAD as no HEAD route is registered. -/
def handlesGet (method : String) : Bool := method = "GET" || method = "HEAD"

/-- The answer of the router to an OPTIONS request that no layer answered
and whose path matched a GET route: 200 with the list of allowed methods. -/
def optionsResponse : Response := ⟨200, Body.text "GET,HEAD"⟩

/-- The framework answer when no layer responded: 404 and a page naming
method and path. -/
def finalNotFound (req : Request) : Response :=
  ⟨404, Body.text ("Cannot " ++ req.method ++ " " ++ req.path)⟩

/-- The framework answer when an error reaches the end of the stack: the
status of the error when it is a 4xx or 5xx, else 500, and a page built from
the error. -/
def finalError (err : Fault) : Response :=
  ⟨if 400 ≤ err.status ∧ err.status < 600 then err.status else 500, Body.text err.stack⟩

/-- The router: walk the layers in registration order.  Without a pending
error, the first layer that matches runs, and the walk goes on if it calls
`next()`; once an error is raised, by a layer or by the matching of a mount
path, only error handlers run.  The flag records that an OPTIONS request met
a route whose path matches: the router then answers itself at the end of the
stack. -/
def dispatch (env : Env) (req : Request) : List Layer → Option Fault → Bool → Response
  | [], none, allow =>
    if req.method = "OPTIONS" ∧ allow = true then optionsResponse else finalNotFound req
  | [], some err, _ => finalError err
  | Layer.use mount fn :: rest, none, allow =>
    match matchMount mount req.path with
    | Except.error err => dispatch env req rest (some err) allow
    | Except.ok false => dispatch env req rest none allow
    | Except.ok true =>
      match fn env req with
      | Outcome.respond r => r
      | Outcome.next => dispatch env req rest none allow
      | Outcome.raise err => dispatch env req rest (some err) allow
  | Layer.get path fn :: rest, none, allow =>
    if matchRoute path req.path then
      if handlesGet req.method then
        match fn env req with
        | Outcome.respond r => r
        | Outcome.next => dispatch env req rest none allow
        | Outcome.raise err => dispatch env req rest (some err) allow
      else dispatch env req rest none (allow || decide (req.method = "OPTIONS"))
    else dispatch env req rest none allow
  | Layer.useError _ :: rest, none, allow => dispatch env req rest none allow
  | Layer.useError fn :: rest, some err, allow =>
    match fn env err req with
    | Outcome.respond r => r
    | Outcome.next => dispatch env req rest none allow
    | Outcome.raise err2 => dispatch env req rest (some err2) allow
  | _ :: rest, some err, allow => dispatch env req rest (some err) allow

/-! ## `src/backend/app.js` -/

/-- The middleware of `cors()` with its default options: a request of method
OPTIONS is answered at once with 204 and no body; any other request gets
headers only and goes on. -/
def cors : Env → Request → Outcome := fun _ req =>
  if req.method = "OPTIONS" then Outcome.respond ⟨204, Body.empty⟩ else Outcome.next

/-- The middleware of `express.json()`: a JSON body that the parser rejects
raises an error (of status 400, 413 or 415; one error object stands for all
of them here, as no handler reads it); anything else goes on. -/
def jsonParser : Env → Request → Outcome := fun _ req =>
  match req.payload with
  | Payload.json false => Outcome.raise ⟨400, "entity.parse.failed", "SyntaxError"⟩
  | _ => Outcome.next

/-- Handler of `app.get('/health', ...)`. -/
def health : Env → Request → Outcome := fun env _ =>
  Outcome.respond ⟨200, object
    [ ("status", some (Json.str "healthy"))
    , ("timestamp", some (Json.str env.now))
    , ("service", some (Json.str "backend-api"))
    , ("version", some (Json.str "1.0.0")) ]⟩

/-- Handler of `app.get('/api/message', ...)`; `res.json` leaves the status
at its default 200. -/
def apiMessage : Env → Request → Outcome := fun env _ =>
  Outcome.respond ⟨200, object
    [ ("message", (randomMessage env.draw).map Json.str)
    , ("timestamp", some (Json.str env.now))
    , ("hostname", some (Json.str env.hostname))
    , ("version", some (Json.str "1.0.0")) ]⟩

/-- Handler of `app.get('/api/info', ...)`. -/
def apiInfo : Env → Request → Outcome := fun env _ =>
  Outcome.respond ⟨200, object
    [ ("service", some (Json.str "DevOps Backend API"))
    , ("version", some (Json.str "1.0.0"))
    , ("environment", some (Json.str (orElse env.nodeEnv "development")))
    , ("node_version", some (Json.str env.nodeVersion))
    , ("uptime", some (Json.num env.uptime))
    , ("timestamp", some (Json.str env.now)) ]⟩

/-- The error handling middleware; `err.stack` goes to the log only. -/
def errorHandler : Env → Fault → Request → Outcome := fun env _ _ =>
  Outcome.respond ⟨500, object
    [ ("error", some (Json.str "Something went wrong!"))
    , ("timestamp", some (Json.str env.now)) ]⟩

/-- The 404 handler, mounted on `*`. -/
def notFound : Env → Request → Outcome := fun env req =>
  Outcome.respond ⟨404, object
    [ ("error", some (Json.str "Endpoint not found"))
    , ("path", some (Json.str req.originalUrl))
    , ("timestamp", some (Json.str env.now)) ]⟩

/-- The backend application: its layers in the order of the source. -/
def backendApp : List Layer :=
  [ Layer.use "/" cors
  , Layer.use "/" jsonParser
  , Layer.get "/health" health
  , Layer.get "/api/message" apiMessage
  , Layer.get "/api/info" apiInfo
  , Layer.useError errorHandler
  , Layer.use "*" notFound ]

/-- The response of the backend to a request. -/
def backend (env : Env) (req : Request) : Response :=
  dispatch env req backendApp none false

/-! ## `src/frontend/app.js` -/

/-- The static asset root (`public/`) as the program uses it: what
`express.static` does with a GET or HEAD request (it sends a file, or finds
nothing to send and calls `next()`, or fails to read and passes an error on),
and the content of `public/index.html` if that file can be read. -/
structure AssetRoot where
  serve : Request → Outcome
  indexHtml : Option String

/-- Handler of `app.use('/health', ...)` of the frontend. -/
def frontendHealth : Env → Request → Outcome := fun env _ =>
  Outcome.respond ⟨200, object
    [ ("status", some (Json.str "healthy"))
    , ("timestamp", some (Json.str env.now)) ]⟩

/-- The middleware of `express.static(root)`: only GET and HEAD are served. -/
def serveStatic (root : AssetRoot) : Env → Request → Outcome := fun _ req =>
  if req.method = "GET" ∨ req.method = "HEAD" then root.serve req else Outcome.next

/-- Handler of `app.get('/', ...)`: `res.sendFile` of `public/index.html`; a
missing file is an error passed to `next`. -/
def sendIndex (root : AssetRoot) : Env → Request → Outcome := fun _ _ =>
  match root.indexHtml with
  | some content => Outcome.respond ⟨200, Body.text content⟩
  | none => Outcome.raise ⟨404, "ENOENT", "NotFoundError"⟩

/-- The frontend application: its layers in the order of the source. -/
def frontendApp (root : AssetRoot) : List Layer :=
  [ Layer.use "/health" frontendHealth
  , Layer.use "/" (serveStatic root)
  , Layer.get "/" (sendIndex root) ]

/-- The response of the frontend to a request. -/
def frontend (root : AssetRoot) (env : Env) (req : Request) : Response :=
  dispatch env req (frontendApp root) none false

/-! ## Sample inputs -/

/-- A request without query string, headers or body. -/
def request (method path : String) : Request := ⟨method, path, none, [], Payload.absent⟩

/-- An environment with no `NODE_ENV` set. -/
def sampleEnv : Env := ⟨"2024-05-01T12:00:00.000Z", draw06, "backend-0", none, "v18.20.2", 42⟩

/-- An asset root holding `index.html` and files at `/health` and
`/health/x`. -/
def sampleRoot : AssetRoot :=
  ⟨fun req => if req.path = "/health" ∨ req.path = "/health/x" ∨ req.path = "/app.js"
      then Outcome.respond ⟨200, Body.text "file content"⟩ else Outcome.next,
   some "<!DOCTYPE html>"⟩

/-! ## Rounding to 53 bits -/

theorem excessBits_small (f p : Nat) (h : p < 2 ^ 53) : excessBits f p = 0 := by
  cases f with
  | zero => rfl
  | succ f => rw [excessBits, if_pos h]

theorem excessBits_step (f p : Nat) (h : 2 ^ 53 ≤ p) :
    excessBits (f + 1) p = excessBits f (p / 2) + 1 := by
  rw [excessBits, if_neg (Nat.not_lt.mpr h)]

theorem excessBits_one (p : Nat) (h1 : 2 ^ 53 ≤ p) (h2 : p < 2 ^ 54) :
    excessBits p p = 1 := by
  obtain ⟨f, rfl⟩ : ∃ f, p = f + 1 := ⟨p - 1, by omega⟩
  rw [excessBits_step f _ h1, excessBits_small f _ (by omega)]

theorem excessBits_two (p : Nat) (h1 : 2 ^ 54 ≤ p) (h2 : p < 2 ^ 55) :
    excessBits p p = 2 := by
  obtain ⟨f, rfl⟩ : ∃ f, p = f + 2 := ⟨p - 2, by omega⟩
  rw [excessBits_step (f + 1) _ (by omega), excessBits_step f _ (by omega),
    excessBits_small f _ (by omega)]

theorem excessBits_three (p : Nat) (h1 : 2 ^ 55 ≤ p) (h2 : p < 2 ^ 56) :
    excessBits p p = 3 := by
  obtain ⟨f, rfl⟩ : ∃ f, p = f + 3 := ⟨p - 3, by omega⟩
  rw [excessBits_step (f + 2) _ (by omega), excessBits_step (f + 1) _ (by omega),
    excessBits_step f _ (by omega), excessBits_small f _ (by omega)]

theorem round53_exact (p : Nat) (h : p < 2 ^ 53) : round53 p = p := by
  simp [round53, excessBits_small p p h]

theorem round53_one (p : Nat) (h1 : 2 ^ 53 ≤ p) (h2 : p < 2 ^ 54) :
    round53 p = if p % 2 = 1 ∧ (p / 2) % 2 = 1 then (p / 2 + 1) * 2 else p / 2 * 2 := by
  simp only [round53, excessBits_one p h1 h2]
  norm_num
  have : p % 2 < 2 := Nat.mod_lt _ (by norm_num)
  have h3 : ¬ 1 < p % 2 := by omega
  simp [h3]

theorem round53_two (p : Nat) (h1 : 2 ^ 54 ≤ p) (h2 : p < 2 ^ 55) :
    round53 p = if 2 < p % 4 ∨ (p % 4 = 2 ∧ (p / 4) % 2 = 1)
      then (p / 4 + 1) * 4 else p / 4 * 4 := by
  simp only [round53, excessBits_two p h1 h2]
  norm_num

theorem round53_three (p : Nat) (h1 : 2 ^ 55 ≤ p) (h2 : p < 2 ^ 56) :
    round53 p = if 4 < p % 8 ∨ (p % 8 = 4 ∧ (p / 8) % 2 = 1)
      then (p / 8 + 1) * 8 else p / 8 * 8 := by
  simp only [round53, excessBits_three p h1 h2]
  norm_num

/-- Below `2 ^ 56` rounding moves a number up by at most 4. -/
theorem round53_le (p : Nat) (h : p < 2 ^ 56) : round53 p ≤ p + 4 := by
  by_cases h0 : p < 2 ^ 53
  · rw [round53_exact p h0]; omega
  by_cases h1 : p < 2 ^ 54
  · rw [round53_one p (by omega) h1]; split <;> omega
  by_cases h2 : p < 2 ^ 55
  · rw [round53_two p (by omega) h2]; split <;> omega
  · rw [round53_three p (by omega) h]; split <;> omega

/-- The rounding of a number below `2 ^ 56`, by the number of bits to drop. -/
theorem round53_cases (p : Nat) (h : p < 2 ^ 56) :
    (p < 2 ^ 53 ∧ round53 p = p) ∨
    (2 ^ 53 ≤ p ∧ p < 2 ^ 54 ∧ round53 p =
      if p % 2 = 1 ∧ (p / 2) % 2 = 1 then (p / 2 + 1) * 2 else p / 2 * 2) ∨
    (2 ^ 54 ≤ p ∧ p < 2 ^ 55 ∧ round53 p =
      if 2 < p % 4 ∨ (p % 4 = 2 ∧ (p / 4) % 2 = 1) then (p / 4 + 1) * 4 else p / 4 * 4) ∨
    (2 ^ 55 ≤ p ∧ round53 p =
      if 4 < p % 8 ∨ (p % 8 = 4 ∧ (p / 8) % 2 = 1) then (p / 8 + 1) * 8 else p / 8 * 8) := by
  by_cases h0 : p < 2 ^ 53
  · exact Or.inl ⟨h0, round53_exact p h0⟩
  by_cases h1 : p < 2 ^ 54
  · exact Or.inr (Or.inl ⟨by omega, h1, round53_one p (by omega) h1⟩)
  by_cases h2 : p < 2 ^ 55
  · exact Or.inr (Or.inr (Or.inl ⟨by omega, h2, round53_two p (by omega) h2⟩))
  · exact Or.inr (Or.inr (Or.inr ⟨by omega, round53_three p (by omega) h⟩))

/-- That `round53` rounds to nearest, ties to even: for `s` dropped bits the
result is a multiple of `2 ^ s`, at distance at most `2 ^ s / 2` from `p`, and
at exactly that distance only when its quotient by `2 ^ s` is even. -/
theorem round53_nearest_even (p s : Nat) (hs : s = 1 ∨ s = 2 ∨ s = 3)
    (h1 : 2 ^ (52 + s) ≤ p) (h2 : p < 2 ^ (53 + s)) :
    round53 p % 2 ^ s = 0 ∧ 2 * round53 p ≤ 2 * p + 2 ^ s ∧ 2 * p ≤ 2 * round53 p + 2 ^ s ∧
    ((2 * round53 p = 2 * p + 2 ^ s ∨ 2 * p = 2 * round53 p + 2 ^ s) →
      round53 p / 2 ^ s % 2 = 0) := by
  rcases hs with rfl | rfl | rfl
  · rw [round53_one p (by simpa using h1) (by simpa using h2)]
    norm_num
    split <;> omega
  · rw [round53_two p (by simpa using h1) (by simpa using h2)]
    norm_num
    split <;> omega
  · rw [round53_three p (by simpa using h1) (by simpa using h2)]
    norm_num
    split <;> omega

/-- Rounding commutes with doubling. -/
theorem round53_double (p : Nat) (h : 2 * p < 2 ^ 56) : round53 (2 * p) = 2 * round53 p := by
  rcases round53_cases p (by omega) with ⟨h0, e0⟩ | ⟨h0, h1, e0⟩ | ⟨h0, h1, e0⟩ | ⟨h0, e0⟩
  · rw [e0]
    by_cases hp : 2 * p < 2 ^ 53
    · exact round53_exact _ hp
    · rw [round53_one _ (by omega) (by omega)]; split <;> omega
  · rw [e0, round53_two _ (by omega) (by omega)]; split <;> split <;> omega
  · rw [e0, round53_three _ (by omega) (by omega)]; split <;> split <;> omega
  · omega

/-- Rounding commutes with scaling by a power of two: the rounded product
depends on the value of the draw only, not on how it is written. -/
theorem round53_scale (j p : Nat) (h : 2 ^ j * p < 2 ^ 56) :
    round53 (2 ^ j * p) = 2 ^ j * round53 p := by
  induction j with
  | zero => simp
  | succ j ih =>
    have hj : 2 ^ (j + 1) * p = 2 * (2 ^ j * p) := by ring
    rw [hj] at h ⊢
    rw [round53_double _ h, ih (by omega)]; ring

theorem threshold_53 (m k : Nat) (hm : m < 2 ^ 53) (hk1 : 1 ≤ k) (hk4 : k ≤ 4) :
    k * 2 ^ 53 ≤ round53 (m * 5) ↔ (k * 2 ^ 54 - slack k) * 2 ^ 53 ≤ 5 * m * 2 ^ 54 := by
  have hk : k = 1 ∨ k = 2 ∨ k = 3 ∨ k = 4 := by omega
  rcases round53_cases (m * 5) (by omega) with ⟨h0, e0⟩ | ⟨h0, h1, e0⟩ | ⟨h0, h1, e0⟩ | ⟨h0, e0⟩ <;>
    rw [e0] <;> rcases hk with rfl | rfl | rfl | rfl <;> simp only [slack] <;>
    (try split) <;> omega

theorem threshold_big (m k X : Nat) (hm : m < 2 ^ 53) (hk1 : 1 ≤ k) (hk4 : k ≤ 4)
    (hX : X = 2 ^ 54 ∨ X = 2 ^ 55 ∨ X = 2 ^ 56 ∨ 2 ^ 57 ≤ X) :
    k * X ≤ round53 (m * 5) ↔ (k * 2 ^ 54 - slack k) * X ≤ 5 * m * 2 ^ 54 := by
  have hk : k = 1 ∨ k = 2 ∨ k = 3 ∨ k = 4 := by omega
  rcases round53_cases (m * 5) (by omega) with ⟨h0, e0⟩ | ⟨h0, h1, e0⟩ | ⟨h0, h1, e0⟩ | ⟨h0, e0⟩ <;>
    rw [e0] <;> rcases hk with rfl | rfl | rfl | rfl <;> simp only [slack] <;>
    rcases hX with rfl | rfl | rfl | hX <;> (try split) <;> omega

theorem threshold_small (m e k : Nat) (he : e ≤ 53) (hme : m < 2 ^ e)
    (hk1 : 1 ≤ k) (hk4 : k ≤ 4) :
    k * 2 ^ e ≤ round53 (m * 5) ↔ (k * 2 ^ 54 - slack k) * 2 ^ e ≤ 5 * m * 2 ^ 54 := by
  obtain ⟨j, hej⟩ : ∃ j, 53 = e + j := ⟨53 - e, by omega⟩
  have hj : 0 < 2 ^ j := Nat.pow_pos (by norm_num)
  have hsplit : 2 ^ 53 = 2 ^ j * 2 ^ e := by rw [hej, pow_add, mul_comm]
  have hm' : 2 ^ j * m < 2 ^ 53 := by
    rw [hsplit]; exact Nat.mul_lt_mul_of_pos_left hme hj
  have key := threshold_53 (2 ^ j * m) k hm' hk1 hk4
  have hsc : round53 (2 ^ j * m * 5) = 2 ^ j * round53 (m * 5) := by
    rw [mul_assoc]
    apply round53_scale
    rw [← mul_assoc]
    omega
  rw [hsc, hsplit] at key
  have l1 : k * (2 ^ j * 2 ^ e) = 2 ^ j * (k * 2 ^ e) := by ring
  have l2 : (k * 2 ^ 54 - slack k) * (2 ^ j * 2 ^ e)
      = 2 ^ j * ((k * 2 ^ 54 - slack k) * 2 ^ e) := by ring
  have l3 : 5 * (2 ^ j * m) * 2 ^ 54 = 2 ^ j * (5 * m * 2 ^ 54) := by ring
  rw [l1, l2, l3, mul_le_mul_left hj, mul_le_mul_left hj] at key
  exact key

/-- The index is at least `k` exactly when the exact product is at least
`k` minus the slack below `k`. -/
theorem threshold_nat (m e k : Nat) (hm : m < 2 ^ 53) (hme : m < 2 ^ e)
    (hk1 : 1 ≤ k) (hk4 : k ≤ 4) :
    k ≤ round53 (m * 5) / 2 ^ e ↔ (k * 2 ^ 54 - slack k) * 2 ^ e ≤ 5 * m * 2 ^ 54 := by
  rw [Nat.le_div_iff_mul_le (Nat.pow_pos (by norm_num))]
  by_cases he : e ≤ 53
  · exact threshold_small m e k he hme hk1 hk4
  · apply threshold_big m k _ hm hk1 hk4
    by_cases h57 : 57 ≤ e
    · exact Or.inr (Or.inr (Or.inr (Nat.pow_le_pow_right (by norm_num) h57)))
    · have : e = 54 ∨ e = 55 ∨ e = 56 := by omega
      rcases this with rfl | rfl | rfl <;> simp

/-! ## The index of `/api/message` -/

theorem randomIndex_eq (d : Draw) : randomIndex d = round53 (d.m * 5) / 2 ^ d.e := rfl

/-- The rounded product never reaches 5, so the index stays below 5. -/
theorem randomIndex_lt (d : Draw) : randomIndex d < 5 := by
  rw [randomIndex_eq, Nat.div_lt_iff_lt_mul (Nat.pow_pos (by norm_num))]
  have h1 := round53_le (d.m * 5) (by have := d.significand; omega)
  have h2 := d.below_one
  omega

theorem randomIndex_ge_iff (d : Draw) (k : Nat) (hk1 : 1 ≤ k) (hk4 : k ≤ 4) :
    k ≤ randomIndex d ↔ threshold k ≤ 5 * d.val := by
  rw [randomIndex_eq, threshold_nat d.m d.e k d.significand d.below_one hk1 hk4]
  have hs : slack k ≤ k * 2 ^ 54 := by
    have hk : k = 1 ∨ k = 2 ∨ k = 3 ∨ k = 4 := by omega
    rcases hk with rfl | rfl | rfl | rfl <;> simp [slack]
  have hpos : (0 : ℚ) < 2 ^ d.e := by positivity
  have h54 : (0 : ℚ) < 2 ^ 54 := by positivity
  have e1 : threshold k = ((k * 2 ^ 54 - slack k : ℕ) : ℚ) / 2 ^ 54 := by
    rw [threshold, Nat.cast_sub hs, sub_div, Nat.cast_mul, Nat.cast_pow, Nat.cast_ofNat,
      mul_div_assoc, div_self h54.ne', mul_one]
  have e2 : 5 * d.val = ((5 * d.m : ℕ) : ℚ) / 2 ^ d.e := by
    rw [Draw.val]; push_cast; ring
  rw [e1, e2, div_le_div_iff₀ h54 hpos]
  constructor
  · intro h
    exact_mod_cast h
  · intro h
    exact_mod_cast h

/-- The five messages are distinct. -/
theorem messages_nodup : messages.Nodup := by decide

theorem randomMessage_eq_iff (d : Draw) (k : Nat) (hk : k < 5) :
    randomMessage d = messages[k]? ↔ randomIndex d = k := by
  have hd := randomIndex_lt d
  have hlen : messages.length = 5 := rfl
  rw [randomMessage]
  constructor
  · intro h
    rw [List.getElem?_eq_getElem (by omega), List.getElem?_eq_getElem (by omega)] at h
    exact (List.Nodup.getElem_inj_iff messages_nodup).mp (Option.some.inj h)
  · intro h; rw [h]

theorem Draw.val_nonneg (d : Draw) : 0 ≤ d.val := by
  rw [Draw.val]; positivity

theorem Draw.val_lt_one (d : Draw) : d.val < 1 := by
  rw [Draw.val, div_lt_one (by positivity)]
  exact_mod_cast d.below_one

theorem randomIndex_ge_iff_all (d : Draw) (k : Nat) (hk : k ≤ 5) :
    k ≤ randomIndex d ↔ threshold k ≤ 5 * d.val := by
  have h0 := d.val_nonneg
  have h1 := d.val_lt_one
  have hd := randomIndex_lt d
  have hcases : k = 0 ∨ (1 ≤ k ∧ k ≤ 4) ∨ k = 5 := by omega
  rcases hcases with rfl | ⟨ha, hb⟩ | rfl
  · simp only [threshold, slack]
    constructor
    · intro _; norm_num; exact h0
    · intro _; exact Nat.zero_le _
  · exact randomIndex_ge_iff d k ha hb
  · simp only [threshold, slack]
    constructor
    · intro h; omega
    · intro h; norm_num at h; linarith

theorem gap_53 (m k : Nat) (hk1 : 1 ≤ k) (hk4 : k ≤ 4)
    (h1 : (k * 2 ^ 54 - slack k) * 2 ^ 53 ≤ 5 * m * 2 ^ 54) (h2 : 5 * m < k * 2 ^ 53) :
    k = 3 ∧ m = 5404319552844595 := by
  have hk : k = 1 ∨ k = 2 ∨ k = 3 ∨ k = 4 := by omega
  rcases hk with rfl | rfl | rfl | rfl <;> simp only [slack] at h1 <;> omega

theorem gap_big (m k X : Nat) (hm : m < 2 ^ 53) (hk1 : 1 ≤ k) (hk4 : k ≤ 4)
    (hX : X = 2 ^ 54 ∨ X = 2 ^ 55 ∨ X = 2 ^ 56 ∨ 2 ^ 57 ≤ X)
    (h1 : (k * 2 ^ 54 - slack k) * X ≤ 5 * m * 2 ^ 54) (h2 : 5 * m < k * X) : False := by
  have hk : k = 1 ∨ k = 2 ∨ k = 3 ∨ k = 4 := by omega
  rcases hk with rfl | rfl | rfl | rfl <;> simp only [slack] at h1 <;>
    rcases hX with rfl | rfl | rfl | hX <;> omega

/-- The only double whose exact product with 5 falls in the slack below an
integer `k` is `5404319552844595 / 2 ^ 53`, with `k = 3`. -/
theorem gap_nat (m e k : Nat) (hm : m < 2 ^ 53) (hme : m < 2 ^ e) (hk1 : 1 ≤ k) (hk4 : k ≤ 4)
    (h1 : (k * 2 ^ 54 - slack k) * 2 ^ e ≤ 5 * m * 2 ^ 54) (h2 : 5 * m < k * 2 ^ e) :
    k = 3 ∧ m * 2 ^ 53 = 5404319552844595 * 2 ^ e := by
  by_cases he : e ≤ 53
  · obtain ⟨j, hej⟩ : ∃ j, 53 = e + j := ⟨53 - e, by omega⟩
    have hj : 0 < 2 ^ j := Nat.pow_pos (by norm_num)
    have hsplit : 2 ^ 53 = 2 ^ j * 2 ^ e := by rw [hej, pow_add, mul_comm]
    have h1' : (k * 2 ^ 54 - slack k) * 2 ^ 53 ≤ 5 * (2 ^ j * m) * 2 ^ 54 := by
      have := Nat.mul_le_mul_left (2 ^ j) h1
      calc (k * 2 ^ 54 - slack k) * 2 ^ 53
          = 2 ^ j * ((k * 2 ^ 54 - slack k) * 2 ^ e) := by rw [hsplit]; ring
        _ ≤ 2 ^ j * (5 * m * 2 ^ 54) := this
        _ = 5 * (2 ^ j * m) * 2 ^ 54 := by ring
    have h2' : 5 * (2 ^ j * m) < k * 2 ^ 53 := by
      have := Nat.mul_lt_mul_of_pos_left h2 hj
      calc 5 * (2 ^ j * m) = 2 ^ j * (5 * m) := by ring
        _ < 2 ^ j * (k * 2 ^ e) := this
        _ = k * 2 ^ 53 := by rw [hsplit]; ring
    obtain ⟨hk3, hm'⟩ := gap_53 (2 ^ j * m) k hk1 hk4 h1' h2'
    refine ⟨hk3, ?_⟩
    rw [hsplit, ← hm']; ring
  · exfalso
    apply gap_big m k (2 ^ e) hm hk1 hk4 _ h1 h2
    by_cases h57 : 57 ≤ e
    · exact Or.inr (Or.inr (Or.inr (Nat.pow_le_pow_right (by norm_num) h57)))
    · have : e = 54 ∨ e = 55 ∨ e = 56 := by omega
      rcases this with rfl | rfl | rfl <;> simp

theorem threshold_le (k : Nat) : threshold k ≤ k := by
  rw [threshold]
  have : (0 : ℚ) ≤ (slack k : ℚ) / 2 ^ 54 := by positivity
  linarith

/-- Away from that one double the index is the floor of the exact product. -/
theorem randomIndex_ge_iff_exact (d : Draw) (hd : d.val ≠ draw06.val) (k : Nat) (hk : k ≤ 5) :
    k ≤ randomIndex d ↔ (k : ℚ) ≤ 5 * d.val := by
  rw [randomIndex_ge_iff_all d k hk]
  constructor
  · intro h
    by_contra hlt
    rw [not_le] at hlt
    have hk1 : 1 ≤ k := by
      rcases Nat.eq_zero_or_pos k with h0 | h0
      · exfalso
        rw [h0] at hlt
        have := d.val_nonneg
        norm_num at hlt
        linarith
      · exact h0
    have hk4 : k ≤ 4 := by
      by_contra h5
      have h5' : k = 5 := by omega
      rw [h5'] at h
      have := d.val_lt_one
      norm_num [threshold, slack] at h
      linarith
    have hpos : (0 : ℚ) < 2 ^ d.e := by positivity
    have h54 : (0 : ℚ) < 2 ^ 54 := by positivity
    have hs : slack k ≤ k * 2 ^ 54 := by
      have hk' : k = 1 ∨ k = 2 ∨ k = 3 ∨ k = 4 := by omega
      rcases hk' with rfl | rfl | rfl | rfl <;> simp [slack]
    have n1 : (k * 2 ^ 54 - slack k) * 2 ^ d.e ≤ 5 * d.m * 2 ^ 54 := by
      have e1 : threshold k = ((k * 2 ^ 54 - slack k : ℕ) : ℚ) / 2 ^ 54 := by
        rw [threshold, Nat.cast_sub hs, sub_div, Nat.cast_mul, Nat.cast_pow, Nat.cast_ofNat,
          mul_div_assoc, div_self h54.ne', mul_one]
      have e2 : 5 * d.val = ((5 * d.m : ℕ) : ℚ) / 2 ^ d.e := by
        rw [Draw.val]; push_cast; ring
      rw [e1, e2, div_le_div_iff₀ h54 hpos] at h
      exact_mod_cast h
    have n2 : 5 * d.m < k * 2 ^ d.e := by
      have e2 : 5 * d.val = ((5 * d.m : ℕ) : ℚ) / 2 ^ d.e := by
        rw [Draw.val]; push_cast; ring
      rw [e2, div_lt_iff₀ hpos] at hlt
      exact_mod_cast hlt
    obtain ⟨_, hm⟩ := gap_nat d.m d.e k d.significand d.below_one hk1 hk4 n1 n2
    apply hd
    rw [Draw.val, Draw.val, div_eq_div_iff hpos.ne' (by simp [draw06])]
    simp only [draw06]
    exact_mod_cast hm
  · intro h
    exact le_trans (threshold_le k) h

/-! ## The backend stack -/

/-- The walk of the backend stack, layer by layer. -/
theorem backend_eq (env : Env) (req : Request) :
    Outcome.respond (backend env req) =
      if req.method = "OPTIONS" then cors env req
      else if req.payload = Payload.json false then
        errorHandler env ⟨400, "entity.parse.failed", "SyntaxError"⟩ req
      else if (matchRoute "/health" req.path && handlesGet req.method) = true then
        health env req
      else if (matchRoute "/api/message" req.path && handlesGet req.method) = true then
        apiMessage env req
      else if (matchRoute "/api/info" req.path && handlesGet req.method) = true then
        apiInfo env req
      else if decodable req.path.toList = true then notFound env req
      else Outcome.respond (finalError ⟨400, "Failed to decode param", "URIError"⟩) := by
  have hm1 : matchMount "/" req.path = Except.ok true := by simp [matchMount]
  have hm2 : matchMount "*" req.path =
      if decodable req.path.toList = true then Except.ok true
      else Except.error ⟨400, "Failed to decode param", "URIError"⟩ := by
    simp [matchMount]
  simp only [backend, backendApp, dispatch, hm1, hm2]
  by_cases h1 : req.method = "OPTIONS"
  · simp [cors, h1]
  · simp only [cors, h1, if_false]
    by_cases h2 : req.payload = Payload.json false
    · simp [jsonParser, h2, errorHandler]
    · have hj : jsonParser env req = Outcome.next := by
        unfold jsonParser
        cases hp : req.payload with
        | absent => rfl
        | foreign => rfl
        | json b => cases b with
          | true => rfl
          | false => exact absurd hp h2
      simp only [hj, h2, if_false]
      cases hG : handlesGet req.method <;> cases hA : matchRoute "/health" req.path <;>
        cases hB : matchRoute "/api/message" req.path <;>
        cases hC : matchRoute "/api/info" req.path <;>
        cases hD : decodable req.path.toList <;>
        simp [health, apiMessage, apiInfo, notFound]

/-- The backend stack for a request that passes the two middlewares. -/
theorem backend_routed (env : Env) (req : Request) (hm : req.method ≠ "OPTIONS")
    (hp : req.payload ≠ Payload.json false) :
    Outcome.respond (backend env req) =
      if (matchRoute "/health" req.path && handlesGet req.method) = true then
        health env req
      else if (matchRoute "/api/message" req.path && handlesGet req.method) = true then
        apiMessage env req
      else if (matchRoute "/api/info" req.path && handlesGet req.method) = true then
        apiInfo env req
      else if decodable req.path.toList = true then notFound env req
      else Outcome.respond (finalError ⟨400, "Failed to decode param", "URIError"⟩) := by
  rw [backend_eq, if_neg hm, if_neg hp]

theorem backend_info (env : Env) (req : Request) (hm : req.method = "GET")
    (hpath : req.path = "/api/info") (hp : req.payload ≠ Payload.json false) :
    backend env req = ⟨200, Body.json
      [("service", Json.str "DevOps Backend API"), ("version", Json.str "1.0.0"),
       ("environment", Json.str (orElse env.nodeEnv "development")),
       ("node_version", Json.str env.nodeVersion), ("uptime", Json.num env.uptime),
       ("timestamp", Json.str env.now)]⟩ := by
  have h := backend_routed env req (by rw [hm]; decide) hp
  have h1 : ¬ (matchRoute "/health" req.path && handlesGet req.method) = true := by
    rw [hm, hpath]; decide
  have h2 : ¬ (matchRoute "/api/message" req.path && handlesGet req.method) = true := by
    rw [hm, hpath]; decide
  have h3 : (matchRoute "/api/info" req.path && handlesGet req.method) = true := by
    rw [hm, hpath]; decide
  rw [if_neg h1, if_neg h2, if_pos h3] at h
  simpa [apiInfo, object] using h

/-- The mount path `/health` matches `/health` itself and every path that
continues it with a slash. -/
theorem matchLeading_health_iff (p : String) :
    matchLeading "/health" p = true ↔
      fold p = "/health".toList ∨ "/health/".toList <+: fold p := by
  have hf : fold "/health" = ['/', 'h', 'e', 'a', 'l', 't', 'h'] := by decide
  have hl : "/health".toList = ['/', 'h', 'e', 'a', 'l', 't', 'h'] := by decide
  have hl2 : "/health/".toList = ['/', 'h', 'e', 'a', 'l', 't', 'h'] ++ ['/'] := by decide
  rw [matchLeading, hf, hl, hl2]
  generalize fold p = x
  have hx : x = x.take 7 ++ x.drop 7 := (List.take_append_drop 7 x).symm
  cases hd : x.drop 7 with
  | nil =>
    simp only [List.length_cons, List.length_nil, hd, decide_eq_true_eq]
    constructor
    · intro h; exact Or.inl h
    · rintro (h | ⟨t, ht⟩)
      · exact h
      · exfalso
        have hlen : x.length ≤ 7 := by
          have := List.drop_eq_nil_iff.mp hd
          simpa using this
        rw [← ht] at hlen
        simp at hlen
  | cons c t =>
    simp only [List.length_cons, List.length_nil, hd, Bool.and_eq_true, decide_eq_true_eq]
    rw [hd] at hx
    constructor
    · rintro ⟨h1, h2⟩
      right
      refine ⟨t, ?_⟩
      rw [hx, h1, h2]
      simp
    · rintro (h | ⟨u, hu⟩)
      · rw [h] at hd; simp at hd
      · rw [← hu] at hd ⊢
        simp at hd
        exact ⟨by simp, hd.1.symm⟩

/-- The walk of the frontend stack. -/
theorem frontend_eq (root : AssetRoot) (env : Env) (req : Request) :
    frontend root env req =
      if matchLeading "/health" req.path = true then
        ⟨200, Body.json [("status", Json.str "healthy"), ("timestamp", Json.str env.now)]⟩
      else
        match serveStatic root env req with
        | Outcome.respond r => r
        | Outcome.raise err => finalError err
        | Outcome.next =>
          if matchRoute "/" req.path = true then
            if handlesGet req.method = true then
              match root.indexHtml with
              | some content => ⟨200, Body.text content⟩
              | none => finalError ⟨404, "ENOENT", "NotFoundError"⟩
            else if req.method = "OPTIONS" then optionsResponse
            else finalNotFound req
          else finalNotFound req := by
  have hm1 : matchMount "/" req.path = Except.ok true := by simp [matchMount]
  have hm2 : matchMount "/health" req.path = Except.ok (matchLeading "/health" req.path) := by
    have h1 : ¬ "/health" = "/" := by decide
    have h2 : ¬ "/health" = "*" := by decide
    rw [matchMount, if_neg h1, if_neg h2]
  simp only [frontend, frontendApp, dispatch, hm1, hm2]
  by_cases h1 : matchLeading "/health" req.path = true
  · simp [h1, frontendHealth, object]
  · have h1' : matchLeading "/health" req.path = false := by simpa using h1
    simp only [h1', if_false]
    cases hst : serveStatic root env req with
    | respond r => simp
    | raise e => simp [dispatch]
    | next =>
      simp only
      by_cases h2 : matchRoute "/" req.path = true
      · simp only [h2, if_true]
        by_cases h3 : handlesGet req.method = true
        · simp only [h3, if_true, sendIndex]
          cases root.indexHtml <;> simp [dispatch]
        · simp only [h3]
          by_cases h4 : req.method = "OPTIONS" <;> simp [h4]
      · simp [h2]

/-! ## Claims on `GET /api/message` -/

/-- C1: the message pool is not empty and has 5 strings, and for every draw
(every double `r` with `0 ≤ r < 1`) the index `Math.floor(r * 5)` is at most
4, the looked-up message is defined and is a member of the pool, and the
handler answers 200 with that string in the `message` field. -/
theorem message_in_pool :
    messages ≠ [] ∧ messages.length = 5 ∧
    ∀ (env : Env) (req : Request), randomIndex env.draw ≤ 4 ∧
      ∃ s, s ∈ messages ∧ randomMessage env.draw = some s ∧
        apiMessage env req = Outcome.respond ⟨200, Body.json
          [("message", Json.str s), ("timestamp", Json.str env.now),
           ("hostname", Json.str env.hostname), ("version", Json.str "1.0.0")]⟩ := by
  refine ⟨by decide, rfl, fun env req => ?_⟩
  have hd := randomIndex_lt env.draw
  have hlen : messages.length = 5 := rfl
  have hget : randomMessage env.draw = some (messages[randomIndex env.draw]) := by
    rw [randomMessage]; exact List.getElem?_eq_getElem (by omega)
  refine ⟨by omega, _, List.getElem_mem (by omega : randomIndex env.draw < messages.length),
    hget, ?_⟩
  simp [apiMessage, object, hget]

/-- C2, as stated, fails: the double nearest to 0.6 (the value of the literal
`0.6`, exactly `5404319552844595 / 2 ^ 53 = 0.59999999999999997779...`) lies
in `[2/5, 3/5)`.  Its exact product with 5 is `27021597764222975 / 2 ^ 53`,
which is not a double: the doubles next to it are `27021597764222972 / 2 ^ 53`
and `27021597764222976 / 2 ^ 53 = 3`, and the nearer one is 3.  So
`Math.floor` gives 3 and the message of index 3 is returned, not the one of
index 2. -/
theorem draw06_selects_index_three :
    (2 : ℚ) / 5 ≤ draw06.val ∧ draw06.val < 3 / 5 ∧
    draw06.m * 5 = 27021597764222975 ∧ mulNum draw06 5 = 3 * 2 ^ 53 ∧
    randomIndex draw06 = 3 ∧
    randomMessage draw06 = messages[3]? ∧ randomMessage draw06 ≠ messages[2]? := by
  refine ⟨?_, ?_, by decide, by decide, by decide, by decide, by decide⟩
  · norm_num [Draw.val, draw06]
  · norm_num [Draw.val, draw06]

/-- C2 (amended): for every draw other than the double nearest to 0.6 and
each `k` in `0..4`, the `k`-th pool string is returned exactly when the draw
lies in `[k/5, (k+1)/5)`; the double nearest to 0.6 returns the string of
index 3; and each of the 5 strings is returned for some draw. -/
theorem selection_intervals :
    (∀ (d : Draw) (k : Nat), k < 5 → d.val ≠ draw06.val →
      (randomMessage d = messages[k]? ↔
        (k : ℚ) / 5 ≤ d.val ∧ d.val < ((k : ℚ) + 1) / 5)) ∧
    randomMessage draw06 = messages[3]? ∧
    (∀ k : Nat, k < 5 → ∃ d : Draw, randomMessage d = messages[k]?) := by
  refine ⟨fun d k hk hd => ?_, by decide, fun k hk => ?_⟩
  · have h1 := randomIndex_ge_iff_exact d hd k (by omega)
    have h2 := randomIndex_ge_iff_exact d hd (k + 1) (by omega)
    rw [randomMessage_eq_iff d k hk, div_le_iff₀ (by norm_num : (0 : ℚ) < 5),
      lt_div_iff₀ (by norm_num : (0 : ℚ) < 5), mul_comm d.val 5, ← h1, ← not_le]
    have h3 : ((k : ℚ) + 1 ≤ 5 * d.val) ↔ k + 1 ≤ randomIndex d := by
      rw [h2]; push_cast; rfl
    rw [h3]
    omega
  · have hcases : k = 0 ∨ k = 1 ∨ k = 2 ∨ k = 3 ∨ k = 4 := by omega
    rcases hcases with rfl | rfl | rfl | rfl | rfl
    · exact ⟨eighths 0 (by decide), by decide⟩
    · exact ⟨eighths 2 (by decide), by decide⟩
    · exact ⟨eighths 4 (by decide), by decide⟩
    · exact ⟨eighths 6 (by decide), by decide⟩
    · exact ⟨eighths 7 (by decide), by decide⟩

/-- C2 (amended), at the draw 1/2 and `k = 2`. -/
theorem selection_intervals_witness :
    (randomMessage (eighths 4 (by decide)) = messages[2]? ↔
      ((2 : ℕ) : ℚ) / 5 ≤ (eighths 4 (by decide)).val ∧
        (eighths 4 (by decide)).val < (((2 : ℕ) : ℚ) + 1) / 5) :=
  selection_intervals.1 (eighths 4 (by decide)) 2 (by decide)
    (by norm_num [Draw.val, eighths, draw06])

/-! ## Claims on the backend routes -/

/-- C3, as stated, fails: none of these (method, path) pairs is one of the
three GET routes as written, yet HEAD `/health`, GET `/health/` and GET
`/API/Info` get 200, an OPTIONS request gets 204 from the CORS middleware and
a request with a rejected JSON body gets 500. -/
theorem status_of_inexact_requests :
    (backend sampleEnv (request "HEAD" "/health")).status = 200 ∧
    (backend sampleEnv (request "GET" "/health/")).status = 200 ∧
    (backend sampleEnv (request "GET" "/API/Info")).status = 200 ∧
    (backend sampleEnv (request "OPTIONS" "/nonexistent")).status = 204 ∧
    (backend sampleEnv ⟨"POST", "/nonexistent", none, [], Payload.json false⟩).status = 500 := by
  decide

/-- C3 (amended): an OPTIONS request is answered 204 with no body by the
CORS middleware; any other request whose JSON body the parser rejects is
answered 500; for every remaining request the status is 200 when the method is
GET or HEAD and the path is `/health`, `/api/message` or `/api/info` compared
without regard to case and with an optional trailing slash (so in particular
for the three pairs as written), and otherwise the response is 404 with a JSON
body of exactly the fields error, path and timestamp, unless the path has a
percent-escape that `decodeURIComponent` rejects, in which case the status is
400. -/
theorem backend_routing (env : Env) (req : Request) :
    (req.method = "OPTIONS" → backend env req = ⟨204, Body.empty⟩) ∧
    (req.method ≠ "OPTIONS" → req.payload = Payload.json false →
      (backend env req).status = 500) ∧
    (req.method ≠ "OPTIONS" → req.payload ≠ Payload.json false →
      (handlesGet req.method = true ∧
          (matchRoute "/health" req.path = true ∨ matchRoute "/api/message" req.path = true ∨
            matchRoute "/api/info" req.path = true) →
        (backend env req).status = 200) ∧
      (¬ (handlesGet req.method = true ∧
          (matchRoute "/health" req.path = true ∨ matchRoute "/api/message" req.path = true ∨
            matchRoute "/api/info" req.path = true)) →
        (decodable req.path.toList = true →
          backend env req = ⟨404, Body.json
            [("error", Json.str "Endpoint not found"), ("path", Json.str req.originalUrl),
             ("timestamp", Json.str env.now)]⟩) ∧
        (decodable req.path.toList = false → (backend env req).status = 400)) ∧
      (req.method = "GET" →
        req.path = "/health" ∨ req.path = "/api/message" ∨ req.path = "/api/info" →
        (backend env req).status = 200)) := by
  refine ⟨fun hopt => ?_, fun hm hp => ?_, fun hm hp => ?_⟩
  · have h := backend_eq env req
    rw [if_pos hopt] at h
    simpa [cors, hopt] using h
  · have h := backend_eq env req
    rw [if_neg hm, if_pos hp] at h
    have e := Outcome.respond.inj h
    rw [e]
  have h := backend_routed env req hm hp
  have key : (handlesGet req.method = true ∧
        (matchRoute "/health" req.path = true ∨ matchRoute "/api/message" req.path = true ∨
          matchRoute "/api/info" req.path = true) →
      (backend env req).status = 200) := by
    rintro ⟨hg, hr⟩
    simp only [hg, Bool.and_true] at h
    by_cases h1 : matchRoute "/health" req.path = true
    · rw [if_pos h1] at h
      have := Outcome.respond.inj h
      rw [this]
    · rw [if_neg h1] at h
      by_cases h2 : matchRoute "/api/message" req.path = true
      · rw [if_pos h2] at h
        have := Outcome.respond.inj h
        rw [this]
      · rw [if_neg h2] at h
        have h3 : matchRoute "/api/info" req.path = true := by tauto
        rw [if_pos h3] at h
        have := Outcome.respond.inj h
        rw [this]
  refine ⟨key, ?_, ?_⟩
  · intro hn
    have h1 : ¬ (matchRoute "/health" req.path && handlesGet req.method) = true := by
      intro hc; rw [Bool.and_eq_true] at hc; exact hn ⟨hc.2, Or.inl hc.1⟩
    have h2 : ¬ (matchRoute "/api/message" req.path && handlesGet req.method) = true := by
      intro hc; rw [Bool.and_eq_true] at hc; exact hn ⟨hc.2, Or.inr (Or.inl hc.1)⟩
    have h3 : ¬ (matchRoute "/api/info" req.path && handlesGet req.method) = true := by
      intro hc; rw [Bool.and_eq_true] at hc; exact hn ⟨hc.2, Or.inr (Or.inr hc.1)⟩
    rw [if_neg h1, if_neg h2, if_neg h3] at h
    constructor
    · intro hd
      rw [if_pos hd] at h
      simpa [notFound, object] using h
    · intro hd
      rw [if_neg (by rw [hd]; decide)] at h
      have e := Outcome.respond.inj h
      rw [e]
      rfl
  · intro hg hpath
    apply key
    refine ⟨by rw [hg]; decide, ?_⟩
    rcases hpath with h | h | h <;> rw [h] <;> decide

/-- C3 (amended), at DELETE `/api/info`: the route exists for GET only, so
the answer is the 404 body. -/
theorem backend_routing_witness :
    backend sampleEnv (request "DELETE" "/api/info") = ⟨404, Body.json
      [("error", Json.str "Endpoint not found"), ("path", Json.str "/api/info"),
       ("timestamp", Json.str "2024-05-01T12:00:00.000Z")]⟩ :=
  (((backend_routing sampleEnv (request "DELETE" "/api/info")).2.2
    (by decide) (by decide)).2.1 (by decide)).1 (by decide)

/-- C5, as stated, fails: with `NODE_ENV` set to the empty string the
`environment` field is `development`, not the empty string. -/
theorem empty_override_gives_default :
    (backend ⟨"2024-05-01T12:00:00.000Z", draw06, "backend-0", some "", "v18.20.2", 42⟩
        (request "GET" "/api/info")).body.field "environment"
      = some (Json.str "development") ∧
    (backend ⟨"2024-05-01T12:00:00.000Z", draw06, "backend-0", some "", "v18.20.2", 42⟩
        (request "GET" "/api/info")).body.field "environment"
      ≠ some (Json.str "") := by
  decide

/-- C5 (amended): in the answer to GET `/api/info` the `environment` field
is `development` when `NODE_ENV` is not set or is set to the empty string,
and is the value of `NODE_ENV` for every non-empty value. -/
theorem environment_field (env : Env) (req : Request) (hm : req.method = "GET")
    (hpath : req.path = "/api/info") (hp : req.payload ≠ Payload.json false) :
    (env.nodeEnv = none →
      (backend env req).body.field "environment" = some (Json.str "development")) ∧
    (env.nodeEnv = some "" →
      (backend env req).body.field "environment" = some (Json.str "development")) ∧
    (∀ v : String, v ≠ "" → env.nodeEnv = some v →
      (backend env req).body.field "environment" = some (Json.str v)) := by
  have hf : (backend env req).body.field "environment"
      = some (Json.str (orElse env.nodeEnv "development")) := by
    rw [backend_info env req hm hpath hp]
    simp [Body.field, List.lookup]
  refine ⟨fun h => ?_, fun h => ?_, fun v hv h => ?_⟩
  · rw [hf, h]; rfl
  · rw [hf, h]; rfl
  · rw [hf, h]; simp [orElse, hv]

/-- C5 (amended), with `NODE_ENV=production`. -/
theorem environment_field_witness :
    (backend ⟨"2024-05-01T12:00:00.000Z", draw06, "backend-0", some "production", "v18.20.2", 42⟩
        (request "GET" "/api/info")).body.field "environment"
      = some (Json.str "production") :=
  (environment_field ⟨"2024-05-01T12:00:00.000Z", draw06, "backend-0", some "production",
      "v18.20.2", 42⟩ (request "GET" "/api/info") rfl rfl (by decide)).2.2
    "production" (by decide) rfl

/-- C6: an error raised by one of the five layers registered before the error
handler (the two middlewares and the three routes) leaves the router with the
layers after that one and the error pending; whatever the error and the
request, the response is then 500 with exactly the fixed `error` string and
the timestamp.  In particular a body rejected by the JSON parser is answered
that way. -/
theorem fault_gives_500 (env : Env) (req : Request) :
    (∀ (i : Nat) (err : Fault) (allow : Bool), i < 5 →
      dispatch env req (backendApp.drop (i + 1)) (some err) allow = ⟨500, Body.json
        [("error", Json.str "Something went wrong!"), ("timestamp", Json.str env.now)]⟩) ∧
    (req.method ≠ "OPTIONS" → req.payload = Payload.json false →
      backend env req = ⟨500, Body.json
        [("error", Json.str "Something went wrong!"), ("timestamp", Json.str env.now)]⟩) := by
  constructor
  · intro i err allow hi
    have hcases : i = 0 ∨ i = 1 ∨ i = 2 ∨ i = 3 ∨ i = 4 := by omega
    rcases hcases with rfl | rfl | rfl | rfl | rfl <;>
      simp [backendApp, dispatch, errorHandler, object]
  · intro hm hp
    have h := backend_eq env req
    rw [if_neg hm, if_pos hp] at h
    simpa [errorHandler, object] using h

/-- C6, for an error raised by the `/api/message` handler (layer 3). -/
theorem fault_gives_500_witness :
    dispatch sampleEnv (request "GET" "/api/message") (backendApp.drop (3 + 1))
        (some ⟨500, "uv_os_gethostname", "SystemError"⟩) false
      = ⟨500, Body.json [("error", Json.str "Something went wrong!"),
          ("timestamp", Json.str sampleEnv.now)]⟩ :=
  (fault_gives_500 sampleEnv (request "GET" "/api/message")).1 3
    ⟨500, "uv_os_gethostname", "SystemError"⟩ false (by decide)

/-- C8: whatever the static asset root holds, a GET `/health` request to the
frontend is answered by the health handler, 200 with status `healthy` and the
timestamp, and never by the static file layer. -/
theorem frontend_health_first (root : AssetRoot) (env : Env) (req : Request)
    (_hm : req.method = "GET") (hpath : req.path = "/health") :
    frontend root env req =
      ⟨200, Body.json [("status", Json.str "healthy"), ("timestamp", Json.str env.now)]⟩ := by
  rw [frontend_eq, if_pos (by rw [hpath]; decide)]

/-- C8, for an asset root that holds a file at `/health`. -/
theorem frontend_health_first_witness :
    sampleRoot.serve (request "GET" "/health")
      = Outcome.respond ⟨200, Body.text "file content"⟩ ∧
    frontend sampleRoot sampleEnv (request "GET" "/health") =
      ⟨200, Body.json [("status", Json.str "healthy"),
        ("timestamp", Json.str sampleEnv.now)]⟩ :=
  ⟨by decide, frontend_health_first sampleRoot sampleEnv (request "GET" "/health") rfl rfl⟩

/-- C9, as stated, fails: GET `/health/x` is answered with the health JSON
although the asset root holds a file at that path. -/
theorem health_mount_covers_subpaths :
    sampleRoot.serve (request "GET" "/health/x")
      = Outcome.respond ⟨200, Body.text "file content"⟩ ∧
    frontend sampleRoot sampleEnv (request "GET" "/health/x") =
      ⟨200, Body.json [("status", Json.str "healthy"),
        ("timestamp", Json.str "2024-05-01T12:00:00.000Z")]⟩ := by
  decide

/-- C9 (amended): for every GET request whose path, compared without regard
to case, is neither `/health` nor begins with `/health/`, the response is
what the static file layer sends for the path when it sends a file; when it
fails, the response is the error page of the framework; when it finds no file,
the response is the index route for the path `/` and the 404 of the framework
for any other path. -/
theorem frontend_static (root : AssetRoot) (env : Env) (req : Request)
    (hm : req.method = "GET")
    (h1 : fold req.path ≠ "/health".toList) (h2 : ¬ "/health/".toList <+: fold req.path) :
    (∀ r, root.serve req = Outcome.respond r → frontend root env req = r) ∧
    (∀ err, root.serve req = Outcome.raise err → frontend root env req = finalError err) ∧
    (root.serve req = Outcome.next → matchRoute "/" req.path = false →
      frontend root env req = finalNotFound req) ∧
    (root.serve req = Outcome.next → matchRoute "/" req.path = true →
      frontend root env req = match root.indexHtml with
        | some content => ⟨200, Body.text content⟩
        | none => finalError ⟨404, "ENOENT", "NotFoundError"⟩) := by
  have hmount : ¬ matchLeading "/health" req.path = true := by
    rw [matchLeading_health_iff]; tauto
  have hg' : handlesGet "GET" = true := by decide
  have hfe := frontend_eq root env req
  rw [if_neg hmount] at hfe
  simp only [serveStatic, hm, true_or, if_true, hg'] at hfe
  refine ⟨fun r hr => ?_, fun err hr => ?_, fun hn hr => ?_, fun hn hr => ?_⟩
  · rw [hfe, hr]
  · rw [hfe, hr]
  · rw [hfe, hn]; simp [hr]
  · rw [hfe, hn]
    cases root.indexHtml <;> simp [hr]

/-- C9 (amended), at GET `/app.js`, a file of the asset root. -/
theorem frontend_static_witness :
    frontend sampleRoot sampleEnv (request "GET" "/app.js") = ⟨200, Body.text "file content"⟩ :=
  (frontend_static sampleRoot sampleEnv (request "GET" "/app.js") rfl (by decide) (by decide)).1
    ⟨200, Body.text "file content"⟩ (by decide)

/-! ## Claim on the backend as a function of its inputs -/

end Kimit
